import Mathlib

/-!
Verification of the stream-framing and parameter-decoding core of the
backslider minimal dashboard scripts.

The definitions below are a shallow embedding of the Python sources in
`backslider_minimal_dashboard/`:

* `prefix_dashboard.py` (class `PrefixECUClient`): sentinel-framed binary
  extraction (`_extract_binary_messages_with_prefix`), text-line extraction
  (`_extract_text_lines`), frame parsing (`_try_parse_can_message`),
  parameter-response decoding (`_process_parameter_response`), request
  encoding (`send_parameter_request`) and the buffer-processing driver
  (`_process_buffer_with_prefix`).
* `robust_dashboard.py` (class `RobustECUClient`): the structural
  pre-check `_looks_like_can_message` and its `send_parameter_request`,
  which packs the request id with a signed-byte struct format.
* `can_dashboard.py` (class `CANDashboard`): `parse_can_message` and the
  endianness selection inside `interpret_message`.
* `working_can_dashboard2.py`: the endianness selection inside
  `parse_and_send_messages`.

Bytes are modelled as natural numbers (the sources hand byte values
0..255 around; none of the verified properties depend on an upper bound).
Python `float` values obtained from `struct.unpack` of 4 bytes are
modelled by the exact IEEE-754 binary32 decoding of the 32-bit word into
a rational number (or an infinity/NaN marker); no floating-point
arithmetic is performed by the code under verification, only decoding
and comparisons, both of which are exact.
-/

namespace Backslider

/-- Bytes are modelled as natural numbers. -/
abbrev Byte := Nat

/-- `PrefixECUClient.READ_REQUEST = 0x01`. -/
def READ_REQUEST : Nat := 0x01

/-- `PrefixECUClient.READ_RESPONSE = 0x03`. -/
def READ_RESPONSE : Nat := 0x03

/-- `PrefixECUClient.CAN_MESSAGE_SIZE = 24`. -/
def CAN_MESSAGE_SIZE : Nat := 24

/-- `PrefixECUClient.TOTAL_BINARY_SIZE = 2 + CAN_MESSAGE_SIZE = 26`. -/
def TOTAL_BINARY_SIZE : Nat := 2 + CAN_MESSAGE_SIZE

/-- The two sentinel bytes `0xFF 0xFF` (`PrefixECUClient.BINARY_PREFIX`). -/
def SENTINEL : List Byte := [0xFF, 0xFF]

/-- The registered parameter tags, the keys of `PrefixECUClient.PARAMETERS`
(identical in `RobustECUClient.PARAMETERS` and
`CANDashboard.message_types`). -/
def PARAMETERS : List Nat := [0x10500001, 0x10500101, 0x10300002]

/-- Little-endian 32-bit word from four bytes, the value computed by
`struct.unpack('<I', ...)`. -/
def word32LE (b0 b1 b2 b3 : Nat) : Nat :=
  b0 + b1 * 256 + b2 * 65536 + b3 * 16777216

/-- Read a little-endian `uint32` at offset `off` of a byte list. -/
def readU32LE (data : List Byte) (off : Nat) : Nat :=
  word32LE (data.getD off 0) (data.getD (off + 1) 0)
    (data.getD (off + 2) 0) (data.getD (off + 3) 0)

/-- The little-endian byte encoding of a 32-bit word
(`struct.pack('<I', w)`). -/
def u32LEBytes (w : Nat) : List Byte :=
  [w % 256, w / 256 % 256, w / 65536 % 256, w / 16777216 % 256]

/-- One decoded parameter response, as stored by
`_process_parameter_response`: tag (the script's `can_id`), the 32-bit
word holding the float value bits (bytes 1..5 of the 8-byte data field,
little-endian), source channel (byte 5) and request id (byte 6). -/
structure ParameterSample where
  tag : Nat
  valueBits : Nat
  sourceChannel : Nat
  requestId : Nat
deriving DecidableEq, Repr

/-- The counters of `PrefixECUClient.stats` that the verified code paths
touch (`raw_bytes_received` is only updated by the serial reader, outside
the embedded core). -/
structure Stats where
  totalRequests : Nat
  totalResponses : Nat
  successfulResponses : Nat
  parseErrors : Nat
  textMessages : Nat
  binaryMessages : Nat
  prefixesFound : Nat
deriving DecidableEq, Repr

/-- All counters zero, as set by `PrefixECUClient.__init__`. -/
def Stats.zero : Stats := ⟨0, 0, 0, 0, 0, 0, 0⟩

/-- `PrefixECUClient._process_parameter_response(can_id, data)`: reads
operation (byte 0), the float value bits (bytes 1..5, little-endian),
source channel (byte 5), request id (byte 6); rejects when the operation
is not `READ_RESPONSE`.  On success the source stores the value into
`parameter_values[can_id]` and bumps `total_responses` and
`successful_responses`; the model returns the stored sample and the
caller performs the increments (the source never reaches this function
with fewer than 8 data bytes, in which case it would raise and return
`False`, modelled by the length guard). -/
def processParameterResponse (canId : Nat) (data : List Byte) : Option ParameterSample :=
  if data.length < 8 then none
  else
    let operation := data.getD 0 0
    let valueBits := readU32LE data 1
    let sourceChannel := data.getD 5 0
    let requestId := data.getD 6 0
    if operation ≠ READ_RESPONSE then none
    else some ⟨canId, valueBits, sourceChannel, requestId⟩

/-- `PrefixECUClient._try_parse_can_message(data)` (byte-identical logic in
`RobustECUClient._try_parse_can_message`): reads the tag as little-endian
`uint32` at offset 0 and the length byte at offset 11, and only processes
the 8 data bytes at offsets 12..20 when the tag is registered and the
length equals 8.  Call sites always pass exactly 24 bytes; on shorter
input the source raises at the first out-of-range access and returns
`False`, modelled by the length guard. -/
def tryParseCanMessage (data : List Byte) : Option ParameterSample :=
  if data.length < 24 then none
  else
    let canId := readU32LE data 0
    let length := data.getD 11 0
    if canId ∈ PARAMETERS ∧ length = 8 then
      processParameterResponse canId ((data.drop 12).take 8)
    else none

/-- `RobustECUClient._looks_like_can_message(data)`: requires exactly 24
bytes, a tag that is neither 0 nor above `0x1FFFFFFF`, and a length byte
at offset 11 of at most 8 (the source then returns `True` both for
registered and for unknown tags). -/
def looksLikeCanMessage (data : List Byte) : Bool :=
  if data.length ≠ 24 then false
  else
    let canId := readU32LE data 0
    if canId = 0 ∨ canId > 0x1FFFFFFF then false
    else if data.getD 11 0 > 8 then false
    else true

/-- The state of a `PrefixECUClient` as far as buffer processing is
concerned: the byte buffer, the parameter samples decoded so far (in
order of decoding; the source stores each into `parameter_values`), the
extracted text lines (in order; the source passes each to
`_process_text_line`) and the statistics counters. -/
structure ClientState where
  buffer : List Byte
  samples : List ParameterSample
  textLines : List (List Byte)
  stats : Stats
deriving DecidableEq, Repr

/-- The scanning loop of
`PrefixECUClient._extract_binary_messages_with_prefix`: starting at
index `i`, while `i <= len(buffer) - 26` look for the two sentinel bytes
at `i`; on a sentinel, count it in `prefixes_found` and try to parse the
24 bytes after it; on success drop everything up to and including the
frame, count the message and restart at index 0, otherwise advance one
byte. -/
def extractLoop (buf : List Byte) (i : Nat) (samples : List ParameterSample)
    (st : Stats) : List Byte × List ParameterSample × Stats :=
  if h : i + 26 ≤ buf.length then
    if buf.getD i 0 = 0xFF ∧ buf.getD (i + 1) 0 = 0xFF then
      let st1 : Stats := { st with prefixesFound := st.prefixesFound + 1 }
      match tryParseCanMessage ((buf.drop (i + 2)).take 24) with
      | some sample =>
          extractLoop (buf.drop (i + 26)) 0 (samples ++ [sample])
            { st1 with
                binaryMessages := st1.binaryMessages + 1
                totalResponses := st1.totalResponses + 1
                successfulResponses := st1.successfulResponses + 1 }
      | none => extractLoop buf (i + 1) samples st1
    else extractLoop buf (i + 1) samples st
  else (buf, samples, st)
termination_by (buf.length, buf.length - i)
decreasing_by
  · apply Prod.Lex.left
    simp [List.length_drop]
    omega
  · apply Prod.Lex.right'
    · omega
    · omega
  · apply Prod.Lex.right'
    · omega
    · omega

theorem extractLoop_stop (buf : List Byte) (i : Nat) (samples : List ParameterSample)
    (st : Stats) (h : ¬ i + 26 ≤ buf.length) :
    extractLoop buf i samples st = (buf, samples, st) := by
  rw [extractLoop, dif_neg h]

theorem extractLoop_skip (buf : List Byte) (i : Nat) (samples : List ParameterSample)
    (st : Stats) (h : i + 26 ≤ buf.length)
    (hp : ¬ (buf.getD i 0 = 0xFF ∧ buf.getD (i + 1) 0 = 0xFF)) :
    extractLoop buf i samples st = extractLoop buf (i + 1) samples st := by
  rw [extractLoop, dif_pos h, if_neg hp]

theorem extractLoop_reject (buf : List Byte) (i : Nat) (samples : List ParameterSample)
    (st : Stats) (h : i + 26 ≤ buf.length)
    (hp : buf.getD i 0 = 0xFF ∧ buf.getD (i + 1) 0 = 0xFF)
    (hr : tryParseCanMessage ((buf.drop (i + 2)).take 24) = none) :
    extractLoop buf i samples st =
      extractLoop buf (i + 1) samples { st with prefixesFound := st.prefixesFound + 1 } := by
  rw [extractLoop, dif_pos h, if_pos hp, hr]

theorem extractLoop_accept (buf : List Byte) (i : Nat) (samples : List ParameterSample)
    (st : Stats) (sample : ParameterSample) (h : i + 26 ≤ buf.length)
    (hp : buf.getD i 0 = 0xFF ∧ buf.getD (i + 1) 0 = 0xFF)
    (hr : tryParseCanMessage ((buf.drop (i + 2)).take 24) = some sample) :
    extractLoop buf i samples st =
      extractLoop (buf.drop (i + 26)) 0 (samples ++ [sample])
        { st with
            prefixesFound := st.prefixesFound + 1
            binaryMessages := st.binaryMessages + 1
            totalResponses := st.totalResponses + 1
            successfulResponses := st.successfulResponses + 1 } := by
  rw [extractLoop, dif_pos h, if_pos hp, hr]

/-- The overflow trim at the end of
`_extract_binary_messages_with_prefix` (the identical lines also close
`RobustECUClient._extract_binary_messages`): when more than 1024 bytes
are buffered, keep only the last 512 (`self.buffer = self.buffer[-512:]`). -/
def trimBuffer (b : List Byte) : List Byte :=
  if b.length > 1024 then b.drop (b.length - 512) else b

/-- `PrefixECUClient._extract_binary_messages_with_prefix`: returns
unchanged when fewer than 26 bytes are buffered, otherwise runs the
scanning loop from index 0 and then applies the overflow trim. -/
def extractBinaryMessagesSentinel (s : ClientState) : ClientState :=
  if s.buffer.length < 26 then s
  else
    let r := extractLoop s.buffer 0 s.samples s.stats
    { buffer := trimBuffer r.1, samples := r.2.1, textLines := s.textLines, stats := r.2.2 }

/-- The line-splitting loop of `PrefixECUClient._extract_text_lines`
(also verbatim in `RobustECUClient`): repeatedly find the first newline
byte, emit everything up to and including it as a text line (counting it
in `text_messages`; `decode(..., errors='ignore')` never raises), and
keep the remainder.  The model performs the same splitting in a single
left-to-right pass with `cur` holding the scanned line-so-far. -/
def textScan (cur : List Byte) (rest : List Byte) (lines : List (List Byte))
    (st : Stats) : List Byte × List (List Byte) × Stats :=
  match rest with
  | [] => (cur, lines, st)
  | b :: rest' =>
      if b = 10 then
        textScan [] rest' (lines ++ [cur ++ [10]])
          { st with textMessages := st.textMessages + 1 }
      else textScan (cur ++ [b]) rest' lines st

/-- `PrefixECUClient._extract_text_lines` acting on the client state. -/
def extractTextLines (s : ClientState) : ClientState :=
  let r := textScan [] s.buffer s.textLines s.stats
  { buffer := r.1, samples := s.samples, textLines := r.2.1, stats := r.2.2 }

/-- `PrefixECUClient._process_buffer_with_prefix`: nothing below 2
buffered bytes; otherwise binary extraction first, then text-line
extraction. -/
def processBufferWithSentinel (s : ClientState) : ClientState :=
  if s.buffer.length < 2 then s
  else extractTextLines (extractBinaryMessagesSentinel s)

/-- A freshly connected client (`__init__`) whose buffer holds `b`. -/
def initState (b : List Byte) : ClientState := ⟨b, [], [], Stats.zero⟩

/-- The request-id update performed after each successful send in both
`PrefixECUClient.send_parameter_request` and
`RobustECUClient.send_parameter_request`:
`self.next_request_id = (self.next_request_id % 255) + 1`. -/
def nextRequestIdUpdate (n : Nat) : Nat := n % 255 + 1

/-- `struct.pack('<BfBBb', READ_REQUEST, 0.0, 1, request_id, 0)` from
`PrefixECUClient.send_parameter_request`: the request id is packed as an
unsigned byte (`B`), so packing succeeds exactly for ids up to 255. -/
def packRequestData (requestId : Nat) : Option (List Byte) :=
  if requestId ≤ 255 then some [READ_REQUEST, 0, 0, 0, 0, 1, requestId, 0] else none

/-- `struct.pack('<Bfbbb', READ_REQUEST, 0.0, 1, request_id, 0)` from
`RobustECUClient.send_parameter_request`: the request id is packed as a
signed byte (`b`), so packing raises `struct.error` for any id above
127. -/
def robustPackRequestData (requestId : Nat) : Option (List Byte) :=
  if requestId ≤ 127 then some [READ_REQUEST, 0, 0, 0, 0, 1, requestId, 0] else none

/-- Result of one `send_parameter_request` call: the bytes written to the
serial port (`none` when nothing was written), the new
`next_request_id`, and the new stats. -/
structure SendResult where
  written : Option (List Byte)
  nextRequestId : Nat
  stats : Stats
deriving DecidableEq, Repr

/-- The 24-byte request message built by both `send_parameter_request`
variants: `bytearray(24)` zero-filled, tag at 0..4, length byte 8 at
offset 11, the 8 packed data bytes at 12..20. -/
def requestMessage (canId : Nat) (paramData : List Byte) : List Byte :=
  u32LEBytes canId ++ [0, 0, 0, 0, 0, 0, 0] ++ [8] ++ paramData ++ [0, 0, 0, 0]

/-- `PrefixECUClient.send_parameter_request(can_id)`: on success writes
the sentinel followed by the 24-byte message, bumps `total_requests` and
advances `next_request_id`; an exception anywhere in the `try` block is
caught and leaves everything unchanged. -/
def sendParameterRequest (canId : Nat) (n : Nat) (st : Stats) : SendResult :=
  match packRequestData n with
  | none => ⟨none, n, st⟩
  | some paramData =>
      ⟨some (SENTINEL ++ requestMessage canId paramData), nextRequestIdUpdate n,
        { st with totalRequests := st.totalRequests + 1 }⟩

/-- `RobustECUClient.send_parameter_request(can_id)`: same shape but the
packing uses the signed-byte format and no sentinel is written; when
`struct.pack` raises, the `except` branch leaves the id and the stats
untouched and nothing reaches the serial port. -/
def robustSendParameterRequest (canId : Nat) (n : Nat) (st : Stats) : SendResult :=
  match robustPackRequestData n with
  | none => ⟨none, n, st⟩
  | some paramData =>
      ⟨some (requestMessage canId paramData), nextRequestIdUpdate n,
        { st with totalRequests := st.totalRequests + 1 }⟩

/-- A Python float obtained from `struct.unpack` of four bytes: the exact
IEEE-754 binary32 value as a rational, or an infinity or NaN marker. -/
inductive F32 where
  | finite : ℚ → F32
  | posInf : F32
  | negInf : F32
  | nan : F32
deriving DecidableEq, Repr

/-- Exact decoding of a 32-bit word as an IEEE-754 binary32 value:
`struct.unpack('<f', word_bytes)` in the sources.  The magnitude of a
normal number with biased exponent `e` and fraction `m` is
`(2^23 + m) * 2^e / 2^150`; a subnormal has magnitude `m / 2^149`. -/
def decodeF32 (w : Nat) : F32 :=
  let sign : Nat := w / 2 ^ 31 % 2
  let ex : Nat := w / 2 ^ 23 % 256
  let mant : Nat := w % 2 ^ 23
  if ex = 255 then
    if mant = 0 then (if sign = 1 then F32.negInf else F32.posInf) else F32.nan
  else
    let mag : ℚ :=
      if ex = 0 then (mant : ℚ) / 2 ^ 149
      else ((2 ^ 23 + mant : Nat) : ℚ) * 2 ^ ex / 2 ^ 150
    F32.finite (if sign = 1 then -mag else mag)

/-- Python comparison `q <= x` for a rational bound against a float
(`False` against NaN, as in Python). -/
def pyLeLo (q : ℚ) : F32 → Bool
  | F32.finite x => decide (q ≤ x)
  | F32.posInf => true
  | F32.negInf => false
  | F32.nan => false

/-- Python comparison `x <= q` of a float against a rational bound
(`False` against NaN, as in Python). -/
def pyLeHi (q : ℚ) : F32 → Bool
  | F32.finite x => decide (x ≤ q)
  | F32.posInf => false
  | F32.negInf => true
  | F32.nan => false

/-- Python chained comparison `lo <= x <= hi` as written in the sources'
range checks. -/
def pyBetween (lo : ℚ) (x : F32) (hi : ℚ) : Bool := pyLeLo lo x && pyLeHi hi x

/-- Falling within a closed numeric range, following the spec's words: a
value lies within the valid range when it is a finite number between the
bounds (declared here for the refinement comparison against the sources'
chained comparisons). -/
def F32.inRange (lo hi : ℚ) : F32 → Bool
  | F32.finite q => decide (lo ≤ q ∧ q ≤ hi)
  | _ => false

theorem pyBetween_eq_inRange (lo hi : ℚ) (x : F32) :
    pyBetween lo x hi = x.inRange lo hi := by
  cases x <;> simp [pyBetween, pyLeLo, pyLeHi, F32.inRange]

/-- The value-selection logic of
`working_can_dashboard2.parse_and_send_messages` (lines 192-229) for a
recognized tag and the 4 extracted data bytes: decode the float both
little- and big-endian, then per tag prefer the little-endian value when
it lies in that tag's plausible range, else the big-endian value when it
does, else default to little-endian; unknown tags take the little-endian
value. -/
def parseAndSendSelect (canId : Nat) (b0 b1 b2 b3 : Byte) : F32 :=
  let le := decodeF32 (word32LE b0 b1 b2 b3)
  let be := decodeF32 (word32LE b3 b2 b1 b0)
  if canId = 0x10500101 then
    if pyBetween 0 le 10 then le else if pyBetween 0 be 10 then be else le
  else if canId = 0x10500001 then
    if pyBetween 50 le 400 then le else if pyBetween 50 be 400 then be else le
  else if canId = 0x10300002 then
    if pyBetween 0 le 200 then le else if pyBetween 0 be 200 then be else le
  else le

/-- The value-selection logic of `can_dashboard.interpret_message`
(lines 148-164) for a registered tag and the first 4 data bytes: decode
little-endian first and, when that value is not in the tag's range,
re-decode big-endian — without checking whether the big-endian value is
in range. -/
def interpretMessageSelect (canId : Nat) (b0 b1 b2 b3 : Byte) : F32 :=
  let le := decodeF32 (word32LE b0 b1 b2 b3)
  let be := decodeF32 (word32LE b3 b2 b1 b0)
  if canId = 0x10500101 then (if ¬ pyBetween 0 le 10 then be else le)
  else if canId = 0x10300002 then (if ¬ pyBetween 0 le 200 then be else le)
  else if canId = 0x10500001 then (if ¬ pyBetween 50 le 400 then be else le)
  else le

/-- The per-tag plausible ranges shared by both scripts (gear 0..10,
fluid temperature 50..400, vehicle speed 0..200). -/
def registryRange (canId : Nat) : Option (ℚ × ℚ) :=
  if canId = 0x10500101 then some (0, 10)
  else if canId = 0x10500001 then some (50, 400)
  else if canId = 0x10300002 then some (0, 200)
  else none

/-- The endianness-disambiguation policy as the spec words it: use the
little-endian interpretation when it falls within the valid range, else
the big-endian one when it falls within range, else default to
little-endian (declared from the spec's words for the refinement
comparison). -/
def specEndianPolicy (lo hi : ℚ) (le be : F32) : F32 :=
  if le.inRange lo hi then le else if be.inRange lo hi then be else le

/-- A decoded `parse_can_message` result from `can_dashboard.py`: tag,
length byte, the `length`-byte payload and the raw timestamp that
follows it. -/
structure CanParsed where
  canId : Nat
  length : Nat
  payload : List Byte
  timestampRaw : Nat
deriving DecidableEq, Repr

/-- `CANDashboard.parse_can_message(data)`: needs at least 9 bytes, tag
at 0..4 little-endian, length byte at offset 4 (at most 8), `length`
payload bytes from offset 5, then a 4-byte little-endian timestamp. -/
def parseCanMessage (data : List Byte) : Option CanParsed :=
  if data.length < 9 then none
  else
    let canId := readU32LE data 0
    let msgLength := data.getD 4 0
    if msgLength > 8 then none
    else if data.length < 5 + msgLength + 4 then none
    else some ⟨canId, msgLength, (data.drop 5).take msgLength, readU32LE data (5 + msgLength)⟩

/-- The 24-byte payload of the reference scenario: tag `0x10500001`
little-endian, sequence 0, zero padding at offsets 8..10, flags 0 at
offset 10, length 8 at offset 11, the 8 data bytes
`[0x03, float32 98.6 LE, 0x01, 0x2A, 0x00]` at offsets 12..20 and zero
reserved bytes (float32 98.6 has bit pattern `0x42C53333`, little-endian
bytes 51, 51, 197, 66). -/
def scenarioPayload : List Byte :=
  [1, 0, 80, 16,
   0, 0, 0, 0,
   0, 0,
   0, 8,
   3, 51, 51, 197, 66, 1, 42, 0,
   0, 0, 0, 0]

/-- The scenario frame as it arrives on the wire: sentinel plus payload. -/
def scenarioFrame : List Byte := SENTINEL ++ scenarioPayload

/-- The parameter sample the scenario decodes to. -/
def scenarioSample : ParameterSample := ⟨0x10500001, 0x42C53333, 1, 42⟩

/-- C1: feeding the single 26-byte input `FF FF` ++ 24-byte payload
(tag `0x10500001` little-endian, sequence 0, flags 0, length 8, data
`[0x03, float32 98.6 LE, 0x01, 0x2A, 0x00]`, zero reserved bytes)
through one full processing pass produces exactly one parameter sample
with tag `0x10500001`, value approximately 98.6 (the decoded float is
`12923699/131072`, within 1/100 of 98.6 = 493/5), source channel 1 and
request id 42, increments `successful_responses` by exactly 1, and
leaves the buffer empty. -/
theorem claim_C1_scenario (sm : List ParameterSample) (tl : List (List Byte)) (st : Stats) :
    processBufferWithSentinel ⟨scenarioFrame, sm, tl, st⟩ =
      ⟨[], sm ++ [scenarioSample], tl,
        { st with
            prefixesFound := st.prefixesFound + 1
            binaryMessages := st.binaryMessages + 1
            totalResponses := st.totalResponses + 1
            successfulResponses := st.successfulResponses + 1 }⟩ ∧
    scenarioSample.tag = 0x10500001 ∧ scenarioSample.sourceChannel = 1 ∧
    scenarioSample.requestId = 42 ∧
    decodeF32 scenarioSample.valueBits = F32.finite (12923699 / 131072 : ℚ) ∧
    |(12923699 / 131072 : ℚ) - 493 / 5| < 1 / 100 := by
  refine ⟨?_, by decide, by decide, by decide, ?_, ?_⟩
  · have step1 : processBufferWithSentinel ⟨scenarioFrame, sm, tl, st⟩ =
        extractTextLines ⟨trimBuffer (extractLoop scenarioFrame 0 sm st).1,
          (extractLoop scenarioFrame 0 sm st).2.1, tl,
          (extractLoop scenarioFrame 0 sm st).2.2⟩ := rfl
    rw [step1,
      extractLoop_accept scenarioFrame 0 sm st scenarioSample (by decide) (by decide) (by decide),
      extractLoop_stop _ _ _ _ (by decide)]
    rfl
  · show decodeF32 0x42C53333 = _
    norm_num [decodeF32]
  · rw [abs_lt]
    constructor <;> norm_num

/-- C3: a 24-byte candidate whose length byte exceeds 8 is always
rejected.  In `_try_parse_can_message` (prefix and robust dashboards)
the length field is the byte at offset 11 and parsing demands it equal
8; `_looks_like_can_message` rejects any length byte above 8 at the same
offset; `can_dashboard.parse_can_message` keeps its length field at
offset 4 and likewise rejects values above 8 there. -/
theorem claim_C3_invalid_length (data : List Byte) (h24 : data.length = 24) :
    (data.getD 11 0 > 8 →
      tryParseCanMessage data = none ∧ looksLikeCanMessage data = false) ∧
    (data.getD 4 0 > 8 → parseCanMessage data = none) := by
  constructor
  · intro h11
    have hcond : ¬ (readU32LE data 0 ∈ PARAMETERS ∧ data.getD 11 0 = 8) :=
      fun hc => Nat.ne_of_gt h11 hc.2
    constructor
    · unfold tryParseCanMessage
      rw [if_neg (by omega : ¬ data.length < 24), if_neg hcond]
    · unfold looksLikeCanMessage
      rw [if_neg (by omega : ¬ data.length ≠ 24)]
      show (if readU32LE data 0 = 0 ∨ readU32LE data 0 > 536870911 then false
            else if data.getD 11 0 > 8 then false else true) = false
      rw [if_pos h11, ite_self]
  · intro h4
    unfold parseCanMessage
    rw [if_neg (by omega : ¬ data.length < 9), if_pos h4]

/-- Witness for C3 at a concrete 24-byte payload whose length bytes at
offsets 4 and 11 both hold 9. -/
theorem claim_C3_invalid_length_witness :
    tryParseCanMessage
      [0, 0, 0, 0, 9, 0, 0, 0, 0, 0, 0, 9, 0, 0, 0, 0, 0, 0, 0, 0, 0, 0, 0, 0] = none ∧
    looksLikeCanMessage
      [0, 0, 0, 0, 9, 0, 0, 0, 0, 0, 0, 9, 0, 0, 0, 0, 0, 0, 0, 0, 0, 0, 0, 0] = false ∧
    parseCanMessage
      [0, 0, 0, 0, 9, 0, 0, 0, 0, 0, 0, 9, 0, 0, 0, 0, 0, 0, 0, 0, 0, 0, 0, 0] = none := by
  have h := claim_C3_invalid_length
    [0, 0, 0, 0, 9, 0, 0, 0, 0, 0, 0, 9, 0, 0, 0, 0, 0, 0, 0, 0, 0, 0, 0, 0] (by decide)
  exact ⟨(h.1 (by decide)).1, (h.1 (by decide)).2, h.2 (by decide)⟩

/-- C5: encoding a read request for any id in 1..=255 with
`send_parameter_request`'s packing and decoding a hand-constructed
response that keeps the same 8-byte layout but carries the RESPONSE
opcode `0x03` yields a sample whose request id equals the original. -/
theorem claim_C5_roundtrip (id : Nat) (_h1 : 1 ≤ id) (h2 : id ≤ 255) :
    ∃ req, packRequestData id = some req ∧
      ∃ s, processParameterResponse 0x10500001 (READ_RESPONSE :: req.drop 1) = some s ∧
        s.requestId = id := by
  refine ⟨[READ_REQUEST, 0, 0, 0, 0, 1, id, 0], ?_, ⟨0x10500001, 0, 1, id⟩, ?_, rfl⟩
  · rw [packRequestData, if_pos h2]
  · show processParameterResponse 0x10500001 [READ_RESPONSE, 0, 0, 0, 0, 1, id, 0] = _
    simp [processParameterResponse, readU32LE, word32LE, READ_RESPONSE]

/-- Witness for C5 at request id 42. -/
theorem claim_C5_roundtrip_witness :
    (1 ≤ 42 ∧ 42 ≤ 255) ∧
    ∃ req, packRequestData 42 = some req ∧
      ∃ s, processParameterResponse 0x10500001 (READ_RESPONSE :: req.drop 1) = some s ∧
        s.requestId = 42 :=
  ⟨⟨by decide, by decide⟩, claim_C5_roundtrip 42 (by decide) (by decide)⟩

/-- C6: the request-id counter update `(n % 255) + 1` maps n to n+1 for
registered values below 255 and wraps 255 to 1; the updated value always
lies in 1..=255 and is never 0, so every state reachable from the
initial value 1 lies in 1..=255; and `send_parameter_request` of the
prefix client applies exactly this update whenever the id fits the
unsigned-byte pack format. -/
theorem claim_C6_request_id_invariant :
    (∀ n, 1 ≤ n → n ≤ 255 →
      (n < 255 → nextRequestIdUpdate n = n + 1) ∧ (n = 255 → nextRequestIdUpdate n = 1)) ∧
    (∀ n, 1 ≤ nextRequestIdUpdate n ∧ nextRequestIdUpdate n ≤ 255 ∧ nextRequestIdUpdate n ≠ 0) ∧
    (∀ k, 1 ≤ nextRequestIdUpdate^[k] 1 ∧ nextRequestIdUpdate^[k] 1 ≤ 255) ∧
    (∀ canId n st, n ≤ 255 →
      (sendParameterRequest canId n st).nextRequestId = nextRequestIdUpdate n) := by
  refine ⟨?_, ?_, ?_, ?_⟩
  · intro n _ _
    constructor
    · intro h
      unfold nextRequestIdUpdate
      omega
    · intro h
      subst h
      rfl
  · intro n
    unfold nextRequestIdUpdate
    omega
  · intro k
    induction k with
    | zero => simp
    | succ k ih =>
        rw [Function.iterate_succ_apply']
        unfold nextRequestIdUpdate
        omega
  · intro canId n st h
    unfold sendParameterRequest packRequestData
    rw [if_pos h]

/-- Witness for C6 at the wrap boundary and at a plain send. -/
theorem claim_C6_request_id_invariant_witness :
    nextRequestIdUpdate 254 = 255 ∧ nextRequestIdUpdate 255 = 1 ∧
    (sendParameterRequest 0x10500001 7 Stats.zero).nextRequestId = nextRequestIdUpdate 7 :=
  ⟨(claim_C6_request_id_invariant.1 254 (by decide) (by decide)).1 (by decide),
   (claim_C6_request_id_invariant.1 255 (by decide) (by decide)).2 rfl,
   claim_C6_request_id_invariant.2.2.2 0x10500001 7 Stats.zero (by decide)⟩

/-- C7: a 24-byte candidate whose little-endian tag is 0 or above
`0x1FFFFFFF` is rejected both by `_looks_like_can_message` (explicit
range check) and by `_try_parse_can_message` (no such tag is
registered). -/
theorem claim_C7_invalid_tag (data : List Byte) (h24 : data.length = 24)
    (htag : readU32LE data 0 = 0 ∨ readU32LE data 0 > 0x1FFFFFFF) :
    looksLikeCanMessage data = false ∧ tryParseCanMessage data = none := by
  constructor
  · unfold looksLikeCanMessage
    rw [if_neg (by omega : ¬ data.length ≠ 24), if_pos htag]
  · have hmem : readU32LE data 0 ∉ PARAMETERS := by
      intro hm
      simp [PARAMETERS] at hm
      rcases htag with h | h <;> rcases hm with h' | h' | h' <;> omega
    unfold tryParseCanMessage
    rw [if_neg (by omega : ¬ data.length < 24), if_neg (fun hc => hmem hc.1)]

/-- Witness for C7 at the all-zero 24-byte payload (tag 0). -/
theorem claim_C7_invalid_tag_witness :
    looksLikeCanMessage
      [0, 0, 0, 0, 0, 0, 0, 0, 0, 0, 0, 0, 0, 0, 0, 0, 0, 0, 0, 0, 0, 0, 0, 0] = false ∧
    tryParseCanMessage
      [0, 0, 0, 0, 0, 0, 0, 0, 0, 0, 0, 0, 0, 0, 0, 0, 0, 0, 0, 0, 0, 0, 0, 0] = none :=
  claim_C7_invalid_tag
    [0, 0, 0, 0, 0, 0, 0, 0, 0, 0, 0, 0, 0, 0, 0, 0, 0, 0, 0, 0, 0, 0, 0, 0]
    (by decide) (Or.inl (by decide))

/-- When the robust client's request id is 128 or more, the signed-byte
`struct.pack` raises and the `except` branch leaves everything
unchanged. -/
theorem robustSend_stuck (canId n : Nat) (st : Stats) (h : 128 ≤ n) :
    robustSendParameterRequest canId n st = ⟨none, n, st⟩ := by
  unfold robustSendParameterRequest robustPackRequestData
  rw [if_neg (by omega)]

/-- C9: in `RobustECUClient.send_parameter_request` an id of 128 or more
makes `struct.pack('<Bfbbb', ...)` raise, the exception is caught,
nothing is written, and neither `next_request_id` nor `total_requests`
changes; consequently, iterating the send from id 128 never advances the
id. -/
theorem claim_C9_signed_request_id :
    (∀ n, 128 ≤ n → robustPackRequestData n = none) ∧
    (∀ canId n st, 128 ≤ n → robustSendParameterRequest canId n st = ⟨none, n, st⟩) ∧
    (∀ canId st k, (fun m => (robustSendParameterRequest canId m st).nextRequestId)^[k] 128 = 128) := by
  refine ⟨?_, ?_, ?_⟩
  · intro n h
    unfold robustPackRequestData
    rw [if_neg (by omega)]
  · intro canId n st h
    exact robustSend_stuck canId n st h
  · intro canId st k
    induction k with
    | zero => rfl
    | succ k ih =>
        rw [Function.iterate_succ_apply', ih, robustSend_stuck canId 128 st (by omega)]

/-- Witness for C9 at id 128. -/
theorem claim_C9_signed_request_id_witness :
    robustPackRequestData 128 = none ∧
    robustSendParameterRequest 0x10500001 128 Stats.zero = ⟨none, 128, Stats.zero⟩ ∧
    (fun m => (robustSendParameterRequest 0x10500001 m Stats.zero).nextRequestId)^[3] 128 = 128 :=
  ⟨claim_C9_signed_request_id.1 128 (by decide),
   claim_C9_signed_request_id.2.1 0x10500001 128 Stats.zero (by decide),
   claim_C9_signed_request_id.2.2 0x10500001 Stats.zero 3⟩

theorem decodeF32_sixteen : decodeF32 (word32LE 0 0 128 65) = F32.finite 16 := by
  norm_num [decodeF32, word32LE]

theorem decodeF32_subnormal :
    decodeF32 (word32LE 65 128 0 0) = F32.finite (32833 / 2 ^ 149) := by
  norm_num [decodeF32, word32LE]

theorem inRange_sixteen_false : (F32.finite (16 : ℚ)).inRange 50 400 = false := by
  simp only [F32.inRange, decide_eq_false_iff_not]
  norm_num

theorem inRange_subnormal_false :
    (F32.finite ((32833 : ℚ) / 2 ^ 149)).inRange 50 400 = false := by
  simp only [F32.inRange, decide_eq_false_iff_not]
  norm_num

/-- C2 counterexample: for the fluid-temperature tag and the value bytes
`00 00 80 41`, the little-endian float is 16.0 and the big-endian float
is the subnormal `32833/2^149`; both lie outside the 50..400 range, yet
`can_dashboard.interpret_message` selects the big-endian value instead
of falling back to the little-endian one as the claim states. -/
theorem claim_C2_counterexample :
    (decodeF32 (word32LE 0 0 128 65)).inRange 50 400 = false ∧
    (decodeF32 (word32LE 65 128 0 0)).inRange 50 400 = false ∧
    interpretMessageSelect 0x10500001 0 0 128 65 = decodeF32 (word32LE 65 128 0 0) ∧
    interpretMessageSelect 0x10500001 0 0 128 65 ≠ decodeF32 (word32LE 0 0 128 65) := by
  have hne : decodeF32 (word32LE 65 128 0 0) ≠ decodeF32 (word32LE 0 0 128 65) := by
    rw [decodeF32_sixteen, decodeF32_subnormal]
    intro h
    injection h with h'
    norm_num at h'
  have hsel : interpretMessageSelect 0x10500001 0 0 128 65 = decodeF32 (word32LE 65 128 0 0) := by
    unfold interpretMessageSelect
    norm_num [pyBetween_eq_inRange, decodeF32_sixteen, inRange_sixteen_false]
  refine ⟨by rw [decodeF32_sixteen]; exact inRange_sixteen_false,
    by rw [decodeF32_subnormal]; exact inRange_subnormal_false, hsel, ?_⟩
  rw [hsel]
  exact hne

/-- C2 amended: for every registered tag,
`working_can_dashboard2.parse_and_send_messages` selects the value
exactly per the policy (little-endian when in range, else big-endian
when in range, else little-endian); `can_dashboard.interpret_message`,
however, selects the big-endian interpretation whenever the
little-endian one is out of range, without checking the big-endian
range. -/
theorem claim_C2_amended :
    (∀ canId lo hi, registryRange canId = some (lo, hi) →
      ∀ b0 b1 b2 b3, parseAndSendSelect canId b0 b1 b2 b3 =
        specEndianPolicy lo hi (decodeF32 (word32LE b0 b1 b2 b3))
          (decodeF32 (word32LE b3 b2 b1 b0))) ∧
    (∀ canId lo hi, registryRange canId = some (lo, hi) →
      ∀ b0 b1 b2 b3, (decodeF32 (word32LE b0 b1 b2 b3)).inRange lo hi = false →
        interpretMessageSelect canId b0 b1 b2 b3 = decodeF32 (word32LE b3 b2 b1 b0)) := by
  constructor
  · intro canId lo hi h b0 b1 b2 b3
    by_cases h1 : canId = 0x10500101
    · subst h1
      rw [registryRange, if_pos rfl, Option.some.injEq, Prod.mk.injEq] at h
      obtain ⟨rfl, rfl⟩ := h.symm.imp Eq.symm Eq.symm
      simp [parseAndSendSelect, specEndianPolicy, pyBetween_eq_inRange]
    · by_cases h2 : canId = 0x10500001
      · subst h2
        rw [registryRange, if_neg (by norm_num), if_pos rfl,
          Option.some.injEq, Prod.mk.injEq] at h
        obtain ⟨rfl, rfl⟩ := h.symm.imp Eq.symm Eq.symm
        simp [parseAndSendSelect, specEndianPolicy, pyBetween_eq_inRange]
      · by_cases h3 : canId = 0x10300002
        · subst h3
          rw [registryRange, if_neg (by norm_num), if_neg (by norm_num), if_pos rfl,
            Option.some.injEq, Prod.mk.injEq] at h
          obtain ⟨rfl, rfl⟩ := h.symm.imp Eq.symm Eq.symm
          simp [parseAndSendSelect, specEndianPolicy, pyBetween_eq_inRange]
        · rw [registryRange, if_neg h1, if_neg h2, if_neg h3] at h
          exact absurd h (by simp)
  · intro canId lo hi h b0 b1 b2 b3 hout
    by_cases h1 : canId = 0x10500101
    · subst h1
      rw [registryRange, if_pos rfl, Option.some.injEq, Prod.mk.injEq] at h
      obtain ⟨rfl, rfl⟩ := h.symm.imp Eq.symm Eq.symm
      simp [interpretMessageSelect, pyBetween_eq_inRange, hout]
    · by_cases h2 : canId = 0x10500001
      · subst h2
        rw [registryRange, if_neg (by norm_num), if_pos rfl,
          Option.some.injEq, Prod.mk.injEq] at h
        obtain ⟨rfl, rfl⟩ := h.symm.imp Eq.symm Eq.symm
        simp [interpretMessageSelect, pyBetween_eq_inRange, hout]
      · by_cases h3 : canId = 0x10300002
        · subst h3
          rw [registryRange, if_neg (by norm_num), if_neg (by norm_num), if_pos rfl,
            Option.some.injEq, Prod.mk.injEq] at h
          obtain ⟨rfl, rfl⟩ := h.symm.imp Eq.symm Eq.symm
          simp [interpretMessageSelect, pyBetween_eq_inRange, hout]
        · rw [registryRange, if_neg h1, if_neg h2, if_neg h3] at h
          exact absurd h (by simp)

/-- Witness for C2's amended statement at the fluid-temperature tag with
value bytes `00 00 80 41`. -/
theorem claim_C2_amended_witness :
    registryRange 0x10500001 = some (50, 400) ∧
    parseAndSendSelect 0x10500001 0 0 128 65 =
      specEndianPolicy 50 400 (decodeF32 (word32LE 0 0 128 65))
        (decodeF32 (word32LE 65 128 0 0)) ∧
    (decodeF32 (word32LE 0 0 128 65)).inRange 50 400 = false ∧
    interpretMessageSelect 0x10500001 0 0 128 65 = decodeF32 (word32LE 65 128 0 0) := by
  have hout : (decodeF32 (word32LE 0 0 128 65)).inRange 50 400 = false := by
    rw [decodeF32_sixteen]
    exact inRange_sixteen_false
  exact ⟨rfl, claim_C2_amended.1 0x10500001 50 400 rfl 0 0 128 65, hout,
    claim_C2_amended.2 0x10500001 50 400 rfl 0 0 128 65 hout⟩

theorem processBufferWithSentinel_run (s : ClientState) (h : ¬ s.buffer.length < 2) :
    processBufferWithSentinel s = extractTextLines (extractBinaryMessagesSentinel s) := by
  unfold processBufferWithSentinel
  exact if_neg h

theorem extractBinaryMessagesSentinel_small (s : ClientState) (h : s.buffer.length < 26) :
    extractBinaryMessagesSentinel s = s := by
  unfold extractBinaryMessagesSentinel
  exact if_pos h

theorem extractBinaryMessagesSentinel_run (s : ClientState) (h : ¬ s.buffer.length < 26) :
    extractBinaryMessagesSentinel s =
      ⟨trimBuffer (extractLoop s.buffer 0 s.samples s.stats).1,
        (extractLoop s.buffer 0 s.samples s.stats).2.1, s.textLines,
        (extractLoop s.buffer 0 s.samples s.stats).2.2⟩ := by
  unfold extractBinaryMessagesSentinel
  exact if_neg h

theorem extractTextLines_eq (s : ClientState) :
    extractTextLines s =
      ⟨(textScan [] s.buffer s.textLines s.stats).1, s.samples,
        (textScan [] s.buffer s.textLines s.stats).2.1,
        (textScan [] s.buffer s.textLines s.stats).2.2⟩ := rfl

theorem textScan_no_newline (l : List Byte) (h : ∀ x ∈ l, x ≠ 10) :
    ∀ (cur : List Byte) (lines : List (List Byte)) (st : Stats),
      textScan cur l lines st = (cur ++ l, lines, st) := by
  induction l with
  | nil => intro cur lines st; simp [textScan]
  | cons b l' ih =>
      intro cur lines st
      have hb : b ≠ 10 := h b (List.mem_cons_self b l')
      rw [textScan, if_neg hb, ih (fun x hx => h x (List.mem_cons_of_mem b hx))]
      simp

theorem extractTextLines_no_newline (s : ClientState) (h : ∀ x ∈ s.buffer, x ≠ 10) :
    extractTextLines s = s := by
  rw [extractTextLines_eq, textScan_no_newline s.buffer h]
  rfl

/-- C4 counterexample: the buffer `FF FF 0A` begins with the sentinel and
holds fewer than 26 bytes, yet one full processing pass does not leave
it unchanged — the text-extraction step that follows binary extraction
consumes all three bytes as a newline-terminated text line. -/
theorem claim_C4_counterexample :
    ([0xFF, 0xFF, 10] : List Byte).take 2 = SENTINEL ∧
    ([0xFF, 0xFF, 10] : List Byte).length < 2 + CAN_MESSAGE_SIZE ∧
    (processBufferWithSentinel (initState [0xFF, 0xFF, 10])).buffer ≠ [0xFF, 0xFF, 10] ∧
    (processBufferWithSentinel (initState [0xFF, 0xFF, 10])).buffer = [] ∧
    (processBufferWithSentinel (initState [0xFF, 0xFF, 10])).textLines = [[0xFF, 0xFF, 10]] ∧
    (processBufferWithSentinel (initState [0xFF, 0xFF, 10])).stats.textMessages = 1 := by
  refine ⟨rfl, by norm_num [CAN_MESSAGE_SIZE], by decide, rfl, rfl, rfl⟩

/-- C4 amended: when the buffer begins with the sentinel but holds fewer
than 26 bytes, the binary-extraction step consumes nothing (need more
data), and the full processing pass leaves the buffer exactly unchanged
provided the buffer contains no newline byte; a newline anywhere in it
makes the text-extraction step that runs afterwards consume bytes. -/
theorem claim_C4_amended (rest : List Byte) (sm : List ParameterSample)
    (tl : List (List Byte)) (st : Stats) (hlen : 2 + rest.length < 26) :
    extractBinaryMessagesSentinel ⟨0xFF :: 0xFF :: rest, sm, tl, st⟩ =
      ⟨0xFF :: 0xFF :: rest, sm, tl, st⟩ ∧
    ((∀ x ∈ rest, x ≠ 10) →
      processBufferWithSentinel ⟨0xFF :: 0xFF :: rest, sm, tl, st⟩ =
        ⟨0xFF :: 0xFF :: rest, sm, tl, st⟩) := by
  have hsmall : (⟨0xFF :: 0xFF :: rest, sm, tl, st⟩ : ClientState).buffer.length < 26 := by
    simp only [List.length_cons]
    omega
  have hb := extractBinaryMessagesSentinel_small ⟨0xFF :: 0xFF :: rest, sm, tl, st⟩ hsmall
  refine ⟨hb, fun hnl => ?_⟩
  have h2 : ¬ (⟨0xFF :: 0xFF :: rest, sm, tl, st⟩ : ClientState).buffer.length < 2 := by
    simp only [List.length_cons]
    omega
  rw [processBufferWithSentinel_run _ h2, hb]
  apply extractTextLines_no_newline
  intro x hx
  simp only [List.mem_cons] at hx
  rcases hx with rfl | rfl | h
  · decide
  · decide
  · exact hnl x h

/-- Witness for C4's amended statement: sentinel followed by ten
newline-free bytes. -/
theorem claim_C4_amended_witness :
    extractBinaryMessagesSentinel
      ⟨0xFF :: 0xFF :: [1, 2, 3, 4, 5, 6, 7, 8, 9, 11], [], [], Stats.zero⟩ =
      ⟨0xFF :: 0xFF :: [1, 2, 3, 4, 5, 6, 7, 8, 9, 11], [], [], Stats.zero⟩ ∧
    processBufferWithSentinel
      ⟨0xFF :: 0xFF :: [1, 2, 3, 4, 5, 6, 7, 8, 9, 11], [], [], Stats.zero⟩ =
      ⟨0xFF :: 0xFF :: [1, 2, 3, 4, 5, 6, 7, 8, 9, 11], [], [], Stats.zero⟩ :=
  ⟨(claim_C4_amended [1, 2, 3, 4, 5, 6, 7, 8, 9, 11] [] [] Stats.zero (by norm_num)).1,
   (claim_C4_amended [1, 2, 3, 4, 5, 6, 7, 8, 9, 11] [] [] Stats.zero (by norm_num)).2
     (by decide)⟩

theorem trimBuffer_length_le (b : List Byte) : (trimBuffer b).length ≤ 1024 := by
  unfold trimBuffer
  split_ifs with h
  · simp only [List.length_drop]
    omega
  · omega

theorem trimBuffer_suffix (b : List Byte) : trimBuffer b <:+ b := by
  unfold trimBuffer
  split_ifs with h
  · exact List.drop_suffix _ _
  · exact List.suffix_refl b

theorem textScan_length_le (l : List Byte) :
    ∀ (cur : List Byte) (lines : List (List Byte)) (st : Stats),
      (textScan cur l lines st).1.length ≤ cur.length + l.length := by
  induction l with
  | nil => intro cur lines st; simp [textScan]
  | cons b l' ih =>
      intro cur lines st
      rw [textScan]
      split_ifs with hb
      · have := ih [] (lines ++ [cur ++ [10]])
          { st with textMessages := st.textMessages + 1 }
        simp only [List.length_nil, List.length_cons] at this ⊢
        omega
      · have := ih (cur ++ [b]) lines st
        simp only [List.length_append, List.length_cons, List.length_nil] at this ⊢
        omega

theorem extractTextLines_buffer_le (s : ClientState) :
    (extractTextLines s).buffer.length ≤ s.buffer.length := by
  rw [extractTextLines_eq]
  have := textScan_length_le s.buffer [] s.textLines s.stats
  simpa using this

/-- C8: after every full processing pass the buffered byte count is at
most 1024; and when the overflow trim fires (strictly more than 1024
buffered bytes) it keeps exactly the most recent 512 bytes — the
retained bytes are a suffix of the pre-trim buffer (only the oldest
bytes are discarded), and in general the trim only ever drops a prefix. -/
theorem claim_C8_buffer_cap :
    (∀ s : ClientState, (processBufferWithSentinel s).buffer.length ≤ 1024) ∧
    (∀ b : List Byte, b.length > 1024 →
      trimBuffer b = b.drop (b.length - 512) ∧ (trimBuffer b).length = 512) ∧
    (∀ b : List Byte, trimBuffer b <:+ b) := by
  refine ⟨?_, ?_, trimBuffer_suffix⟩
  · intro s
    by_cases h2 : s.buffer.length < 2
    · have : processBufferWithSentinel s = s := by
        unfold processBufferWithSentinel
        exact if_pos h2
      rw [this]
      omega
    · rw [processBufferWithSentinel_run s h2]
      have hbin : (extractBinaryMessagesSentinel s).buffer.length ≤ 1024 := by
        by_cases h26 : s.buffer.length < 26
        · rw [extractBinaryMessagesSentinel_small s h26]
          omega
        · rw [extractBinaryMessagesSentinel_run s h26]
          exact trimBuffer_length_le _
      calc (extractTextLines (extractBinaryMessagesSentinel s)).buffer.length
          ≤ (extractBinaryMessagesSentinel s).buffer.length :=
            extractTextLines_buffer_le _
        _ ≤ 1024 := hbin
  · intro b h
    have ht : trimBuffer b = b.drop (b.length - 512) := by
      unfold trimBuffer
      exact if_pos h
    refine ⟨ht, ?_⟩
    rw [ht]
    simp only [List.length_drop]
    omega

/-- Witness for C8 at a 1025-byte buffer and at a concrete pass. -/
theorem claim_C8_buffer_cap_witness :
    (List.replicate 1025 (0 : Byte)).length > 1024 ∧
    trimBuffer (List.replicate 1025 (0 : Byte)) =
      (List.replicate 1025 (0 : Byte)).drop ((List.replicate 1025 (0 : Byte)).length - 512) ∧
    (trimBuffer (List.replicate 1025 (0 : Byte))).length = 512 ∧
    (processBufferWithSentinel (initState [7, 7, 7])).buffer.length ≤ 1024 := by
  have h : (List.replicate 1025 (0 : Byte)).length > 1024 := by
    rw [List.length_replicate]
    omega
  exact ⟨h, (claim_C8_buffer_cap.2.1 _ h).1, (claim_C8_buffer_cap.2.1 _ h).2,
    claim_C8_buffer_cap.1 (initState [7, 7, 7])⟩

theorem drop_length_add {α : Type} (p q : List α) (k : Nat) :
    (p ++ q).drop (p.length + k) = q.drop k := by
  induction p with
  | nil => simp
  | cons a p' ih =>
      have harith : p'.length + 1 + k = (p'.length + k) + 1 := by omega
      simp only [List.cons_append, List.length_cons, harith, List.drop_succ_cons]
      exact ih

/-- While the scan index stays inside a sentinel-free span of the
buffer, the extraction loop only advances the index. -/
theorem extractLoop_skip_ffree (p q : List Byte) (hff : ∀ x ∈ p, x ≠ 0xFF)
    (hq : q.length = 26) :
    ∀ n i, p.length - i = n → i ≤ p.length → ∀ samples st,
      extractLoop (p ++ q) i samples st = extractLoop (p ++ q) p.length samples st := by
  have hlen : (p ++ q).length = p.length + 26 := by
    rw [List.length_append, hq]
  intro n
  induction n with
  | zero =>
      intro i h0 hi samples st
      have : i = p.length := by omega
      rw [this]
  | succ n ih =>
      intro i h0 hi samples st
      have hilt : i < p.length := by omega
      have hskip := extractLoop_skip (p ++ q) i samples st (by omega)
        (fun hc => by
          have h1 := hc.1
          rw [List.getD_append p q 0 i hilt, List.getD_eq_getElem p 0 hilt] at h1
          exact hff _ (List.getElem_mem hilt) h1)
      rw [hskip]
      exact ih (i + 1) (by omega) (by omega) samples st

/-- C10: whenever a valid sentinel-framed frame sits after nonempty
leading noise (here: any nonempty sentinel-free bytes, which may contain
complete newline-terminated lines), one processing pass drops the noise
together with the accepted frame in the same step: the noise is never
emitted as a text line, `text_messages` stays 0, and only the frame's
sample is produced, because binary extraction runs over the whole buffer
before text extraction. -/
theorem claim_C10_noise_dropped_with_frame (p : List Byte) (_hne : p ≠ [])
    (hff : ∀ x ∈ p, x ≠ 0xFF) :
    processBufferWithSentinel (initState (p ++ scenarioFrame)) =
      ⟨[], [scenarioSample], [],
        { Stats.zero with
            prefixesFound := 1
            binaryMessages := 1
            totalResponses := 1
            successfulResponses := 1 }⟩ := by
  have hsf : scenarioFrame.length = 26 := rfl
  have hlen : (p ++ scenarioFrame).length = p.length + 26 := by
    rw [List.length_append, hsf]
  have h2 : ¬ (initState (p ++ scenarioFrame)).buffer.length < 2 := by
    show ¬ (p ++ scenarioFrame).length < 2
    omega
  have h26 : ¬ (initState (p ++ scenarioFrame)).buffer.length < 26 := by
    show ¬ (p ++ scenarioFrame).length < 26
    omega
  rw [processBufferWithSentinel_run _ h2, extractBinaryMessagesSentinel_run _ h26]
  have hloop : extractLoop (initState (p ++ scenarioFrame)).buffer 0
      (initState (p ++ scenarioFrame)).samples (initState (p ++ scenarioFrame)).stats =
      ([], [scenarioSample],
        { Stats.zero with
            prefixesFound := 1
            binaryMessages := 1
            totalResponses := 1
            successfulResponses := 1 }) := by
    show extractLoop (p ++ scenarioFrame) 0 [] Stats.zero = _
    rw [extractLoop_skip_ffree p scenarioFrame hff hsf (p.length - 0) 0 rfl
      (Nat.zero_le _) [] Stats.zero]
    have hb0 : (p ++ scenarioFrame).getD p.length 0 = 0xFF := by
      rw [List.getD_append_right p scenarioFrame 0 p.length (Nat.le_refl _),
        Nat.sub_self]
      rfl
    have hb1 : (p ++ scenarioFrame).getD (p.length + 1) 0 = 0xFF := by
      rw [List.getD_append_right p scenarioFrame 0 (p.length + 1) (by omega),
        Nat.add_sub_cancel_left]
      rfl
    have hdrop : ((p ++ scenarioFrame).drop (p.length + 2)).take 24 = scenarioPayload := by
      rw [drop_length_add p scenarioFrame 2]
      rfl
    have hparse : tryParseCanMessage (((p ++ scenarioFrame).drop (p.length + 2)).take 24) =
        some scenarioSample := by
      rw [hdrop]
      decide
    rw [extractLoop_accept (p ++ scenarioFrame) p.length [] Stats.zero scenarioSample
      (by omega) ⟨hb0, hb1⟩ hparse]
    have hrest : (p ++ scenarioFrame).drop (p.length + 26) = [] := by
      rw [drop_length_add p scenarioFrame 26]
      rfl
    rw [hrest, extractLoop_stop _ _ _ _ (by decide)]
    rfl
  rw [hloop]
  rfl

/-- Witness for C10 with the noise bytes of a complete text line
("HI" plus newline) before the frame. -/
theorem claim_C10_noise_dropped_with_frame_witness :
    processBufferWithSentinel (initState ([72, 73, 10] ++ scenarioFrame)) =
      ⟨[], [scenarioSample], [],
        { Stats.zero with
            prefixesFound := 1
            binaryMessages := 1
            totalResponses := 1
            successfulResponses := 1 }⟩ :=
  claim_C10_noise_dropped_with_frame [72, 73, 10] (by decide) (by decide)

end Backslider
